import Mathlib

/-!
Shallow embedding of the venus per-context renderer backend
(src/venus_context.c, src/venus_context.h, src/venus/vkr_context.h):
the fence/timeline layer, the context registry and retire callback,
and the device-memory export/allocation policy.

Machine integers are modelled as `Nat` with explicit `% 2^32` where the
C code relies on `uint32_t` wraparound.
-/

/-- `VENUS_CONTEXT_TIMELINE_COUNT` from venus_context.h. -/
def VENUS_CONTEXT_TIMELINE_COUNT : Nat := 64

/-- `INT32_MAX` (2^31 - 1), the threshold used by `venus_fence_is_signaled`. -/
def INT32_MAX : Nat := 2147483647

/-- Truncation to `uint32_t`. -/
def u32 (x : Nat) : Nat := x % 2 ^ 32

/-- `uint32_t` subtraction `a - b` with wraparound, as in
`const uint32_t d = cur_seqno - fence->seqno;`. -/
def u32_sub (a b : Nat) : Nat := (u32 a + 2 ^ 32 - u32 b) % 2 ^ 32

/-- `struct venus_fence` (venus_context.c): flags, a 32-bit seqno assigned
from the timeline counter, and the guest-supplied 64-bit fence id.  The
intrusive `list_head` is represented by membership in the timeline's
fence list. -/
structure venus_fence where
  flags : Nat
  seqno : Nat
  fence_id : Nat
deriving DecidableEq

/-- `struct venus_timeline` (venus_context.h): current seqno, next seqno to
assign, and the ordered in-flight fence list.  The unused
`cur_seqno_stall_count` is omitted (no code under src/ reads it). -/
structure venus_timeline where
  cur_seqno : Nat
  next_seqno : Nat
  fences : List venus_fence
deriving DecidableEq

instance : Inhabited venus_timeline := ⟨⟨0, 0, []⟩⟩

/-- `struct venus_context` (venus_context.h): the context id from
`base.ctx_id`, the 64 timelines, the 64-bit busy mask, and the free-fence
pool.  The resource table and the `timeline_seqnos` shmem pointer are not
touched by the fence-layer operations modelled here. -/
structure venus_context where
  ctx_id : Nat
  timelines : List venus_timeline
  timeline_busy_mask : Nat
  free_fences : List venus_fence
deriving DecidableEq

/-- `venus_fence_is_signaled` (venus_context.c:164-170):
`d = cur_seqno - fence->seqno` in `uint32_t`, signaled iff `d < INT32_MAX`. -/
def venus_fence_is_signaled (fence : venus_fence) (cur_seqno : Nat) : Bool :=
  u32_sub cur_seqno fence.seqno < INT32_MAX

/-- The pop loop of `venus_context_retire_fences_internal`
(venus_context.c:221-230): walk the in-order fence list, popping every
fence while it is signaled, returning at the first unsignaled fence.
Returns (fences popped in order, fences remaining). -/
def retire_fence_walk (cur_seqno : Nat) :
    List venus_fence → List venus_fence × List venus_fence
  | [] => ([], [])
  | f :: rest =>
    if venus_fence_is_signaled f cur_seqno then
      let w := retire_fence_walk cur_seqno rest
      (f :: w.1, w.2)
    else
      ([], f :: rest)

/-- One retire callback the code delivers (`ctx->base.fence_retire`), or -
as ghost instrumentation for the ordering specification - one successful
fence submission. -/
inductive venus_event_kind where
  | submitted
  | retired
deriving DecidableEq

/-- An event on a context's timeline: the ring index, the fence's 32-bit
seqno and its 64-bit fence id. -/
structure venus_event where
  kind : venus_event_kind
  ring_idx : Nat
  seqno : Nat
  fence_id : Nat
deriving DecidableEq

/-- `venus_context_retire_fences_internal` (venus_context.c:211-231):
store the observed seqno into `timeline->cur_seqno`, pop every signaled
fence in list order, fire `fence_retire` for each, return popped fences
to the free list (`venus_context_free_fence` prepends, so they end up on
the pool in reverse pop order).  The busy mask is NOT touched.
Returns the new context and the retire callbacks fired, in order. -/
def venus_context_retire_fences_internal (ctx : venus_context)
    (ring_idx seqno : Nat) : venus_context × List venus_event :=
  let timeline := ctx.timelines.getD ring_idx default
  let w := retire_fence_walk seqno timeline.fences
  let timeline' : venus_timeline :=
    { timeline with cur_seqno := seqno, fences := w.2 }
  ({ ctx with
      timelines := ctx.timelines.set ring_idx timeline',
      free_fences := w.1.reverse ++ ctx.free_fences },
   w.1.map fun f => ⟨.retired, ring_idx, f.seqno, f.fence_id⟩)

/-- `venus_context_retire_fences` (venus_context.c:233-254): the source
prints "UNIMPLEMENTED" to stderr and returns; the body that would walk the
busy mask and clear bits of now-empty timelines is disabled by `#if 0`.
The modelled effect is therefore the identity. -/
def venus_context_retire_fences (ctx : venus_context) : venus_context :=
  ctx

/-- `venus_context_submit_fence` (venus_context.c:267-315).  `driver_ok`
models the return value of `vkr_renderer_submit_fence`.  The result is
(return value, new context, whether the driver submit hook was invoked).

Mirrors the source exactly: save `old_busy_mask`; reject `ring_idx >= 64`
with `-EINVAL` (= -22); allocate a fence from the pool head or fresh
(`malloc` modelled as always succeeding); assign
`fence->seqno = timeline->next_seqno++` (uint32); append to the
timeline's list; set the busy bit; call the driver.  On driver failure,
delete the fence from the list, restore the busy mask, and prepend the
fence to the free pool - `next_seqno` is NOT restored. -/
def venus_context_submit_fence (ctx : venus_context)
    (flags ring_idx fence_id : Nat) (driver_ok : Bool) :
    Int × venus_context × Bool :=
  let old_busy_mask := ctx.timeline_busy_mask
  if ring_idx ≥ VENUS_CONTEXT_TIMELINE_COUNT then
    (-22, ctx, false)
  else
    let timeline := ctx.timelines.getD ring_idx default
    let fence : venus_fence :=
      { flags := flags, seqno := timeline.next_seqno, fence_id := fence_id }
    let free_rest := ctx.free_fences.tail
    let timeline' : venus_timeline :=
      { timeline with
          next_seqno := u32 (timeline.next_seqno + 1),
          fences := timeline.fences ++ [fence] }
    if driver_ok then
      (0,
       { ctx with
          timelines := ctx.timelines.set ring_idx timeline',
          timeline_busy_mask := ctx.timeline_busy_mask ||| 2 ^ ring_idx,
          free_fences := free_rest },
       true)
    else
      (-1,
       { ctx with
          timelines := ctx.timelines.set ring_idx
            { timeline' with fences := timeline.fences },
          timeline_busy_mask := old_busy_mask,
          free_fences := fence :: free_rest },
       true)

/-- `venus_context_submit_cmd` (venus_context.c:147-162).  `renderer_ok`
models the return value of `vkr_renderer_submit_cmd`.  The result is
(return value, the context - which the source never touches, and whether
the renderer was called). -/
def venus_context_submit_cmd (ctx : venus_context) (renderer_ok : Bool)
    (size : Nat) : Int × venus_context × Bool :=
  if size = 0 then
    (0, ctx, false)
  else if renderer_ok then
    (0, ctx, true)
  else
    (-1, ctx, true)

/-- `venus_context_create` / `calloc` zero-initialization plus
`venus_context_init_timelines`: 64 empty timelines, busy mask 0, empty
free pool. -/
def venus_initial_context (ctx_id : Nat) : venus_context :=
  { ctx_id := ctx_id,
    timelines := List.replicate VENUS_CONTEXT_TIMELINE_COUNT default,
    timeline_busy_mask := 0,
    free_fences := [] }

/-- `venus_lookup_context` (venus_context.c:318-331): first context in the
global list whose `base.ctx_id` matches. -/
def venus_lookup_context (contexts : List venus_context) (ctx_id : Nat) :
    Option venus_context :=
  contexts.find? fun iter => iter.ctx_id == ctx_id

/-- Replace the first context with the given context's id (the C code
mutates the found node in place). -/
def venus_replace_context : List venus_context → venus_context →
    List venus_context
  | [], _ => []
  | c :: rest, c2 =>
    if c.ctx_id == c2.ctx_id then c2 :: rest
    else c :: venus_replace_context rest c2

/-- `venus_state_cb_retire_fence` (venus_context.c:421-429): look the
context up by id, reduce `fence_id` to its low 32 bits, and run the
retirement walk.  When no context matches, `assert(ctx)` fails and the
code then dereferences the null pointer: there is no graceful return, so
that path is modelled as `none`. -/
def venus_state_cb_retire_fence (contexts : List venus_context)
    (ctx_id ring_idx fence_id : Nat) :
    Option (List venus_context × List venus_event) :=
  match venus_lookup_context contexts ctx_id with
  | none => none
  | some ctx =>
    let seqno := u32 fence_id
    let r := venus_context_retire_fences_internal ctx ring_idx seqno
    some (venus_replace_context contexts r.1, r.2)

/-- The operations the host and the driver's async thread perform on one
context's fence layer: `venus_context_submit_fence` (with the driver
hook's outcome), the async retire callback reduced to its per-context
body, and `venus_context_retire_fences`. -/
inductive venus_op where
  | submit_fence (flags ring_idx fence_id : Nat) (driver_ok : Bool)
  | on_retire (ring_idx fence_id : Nat)
  | retire_all
deriving DecidableEq

/-- One operation on a context, returning the new context and the events:
the retire callbacks fired, plus a ghost `submitted` event recording each
fence that `venus_context_submit_fence` successfully enqueued (its seqno
is the timeline's `next_seqno` at the call). -/
def venus_step (ctx : venus_context) : venus_op → venus_context × List venus_event
  | .submit_fence flags ring_idx fence_id driver_ok =>
    let r := venus_context_submit_fence ctx flags ring_idx fence_id driver_ok
    if ring_idx < VENUS_CONTEXT_TIMELINE_COUNT ∧ driver_ok = true then
      (r.2.1,
       [⟨.submitted, ring_idx, (ctx.timelines.getD ring_idx default).next_seqno,
         fence_id⟩])
    else
      (r.2.1, [])
  | .on_retire ring_idx fence_id =>
    venus_context_retire_fences_internal ctx ring_idx (u32 fence_id)
  | .retire_all =>
    (venus_context_retire_fences ctx, [])

/-- Run a sequence of operations, accumulating the events in order. -/
def venus_run (ctx : venus_context) : List venus_op → venus_context × List venus_event
  | [] => (ctx, [])
  | op :: ops =>
    let s := venus_step ctx op
    let r := venus_run s.1 ops
    (r.1, s.2 ++ r.2)

/-- The (seqno, fence_id) pairs of the retire callbacks fired on ring
`r`, in firing order. -/
def ring_retired (r : Nat) (es : List venus_event) : List (Nat × Nat) :=
  (es.filter fun e => e.kind == .retired && e.ring_idx == r).map
    fun e => (e.seqno, e.fence_id)

/-- The (seqno, fence_id) pairs of the fences successfully submitted on
ring `r`, in submission order. -/
def ring_submitted (r : Nat) (es : List venus_event) : List (Nat × Nat) :=
  (es.filter fun e => e.kind == .submitted && e.ring_idx == r).map
    fun e => (e.seqno, e.fence_id)

/-- The (seqno, fence_id) pairs of the fences in flight on ring `r`. -/
def ring_inflight (ctx : venus_context) (r : Nat) : List (Nat × Nat) :=
  (ctx.timelines.getD r default).fences.map fun f => (f.seqno, f.fence_id)

/-- The in-order retirement invariant: the context has its 64 timelines,
and on every ring the successful submissions are exactly the fences
already retired followed by the fences still in flight, in order. -/
def venus_inv (ctx : venus_context) (es : List venus_event) : Prop :=
  ctx.timelines.length = VENUS_CONTEXT_TIMELINE_COUNT ∧
  ∀ r, r < VENUS_CONTEXT_TIMELINE_COUNT →
    ring_submitted r es = ring_retired r es ++ ring_inflight ctx r

/-! Device-memory policy (src/venus/vkr_context.h, second part: the
device-memory dispatch and blob export).  Bit values of the public ABI
headers (virglrenderer.h, virgl_resource.h, vulkan_core.h) are not under
src/; they are the standard values those headers define. -/

/-- `enum virgl_resource_fd_type`: `VIRGL_RESOURCE_FD_DMABUF`. -/
def VIRGL_RESOURCE_FD_DMABUF : Nat := 1

/-- `enum virgl_resource_fd_type`: `VIRGL_RESOURCE_FD_OPAQUE`. -/
def VIRGL_RESOURCE_FD_OPAQUE : Nat := 2

/-- `enum virgl_resource_fd_type`: `VIRGL_RESOURCE_OPAQUE_HANDLE`, the
fork's extra member for host-mapped memory with no fd. -/
def VIRGL_RESOURCE_OPAQUE_HANDLE : Nat := 4

/-- `VK_MEMORY_PROPERTY_HOST_VISIBLE_BIT` (0x2). -/
def VK_MEMORY_PROPERTY_HOST_VISIBLE_BIT : Nat := 2

/-- `VK_MEMORY_PROPERTY_HOST_COHERENT_BIT` (0x4). -/
def VK_MEMORY_PROPERTY_HOST_COHERENT_BIT : Nat := 4

/-- `VK_MEMORY_PROPERTY_HOST_CACHED_BIT` (0x8). -/
def VK_MEMORY_PROPERTY_HOST_CACHED_BIT : Nat := 8

/-- `VIRGL_RENDERER_MAP_CACHE_NONE` (0x0). -/
def VIRGL_RENDERER_MAP_CACHE_NONE : Nat := 0

/-- `VIRGL_RENDERER_MAP_CACHE_CACHED` (0x1). -/
def VIRGL_RENDERER_MAP_CACHE_CACHED : Nat := 1

/-- `VIRGL_RENDERER_MAP_CACHE_WC` (0x3). -/
def VIRGL_RENDERER_MAP_CACHE_WC : Nat := 3

/-- `VIRGL_RENDERER_BLOB_FLAG_USE_MAPPABLE` (0x1). -/
def VIRGL_RENDERER_BLOB_FLAG_USE_MAPPABLE : Nat := 1

/-- `VIRGL_RENDERER_BLOB_FLAG_USE_CROSS_DEVICE` (0x4). -/
def VIRGL_RENDERER_BLOB_FLAG_USE_CROSS_DEVICE : Nat := 4

/-- `VK_EXTERNAL_MEMORY_HANDLE_TYPE_DMA_BUF_BIT_EXT` (0x200). -/
def VK_EXTERNAL_MEMORY_HANDLE_TYPE_DMA_BUF_BIT_EXT : Nat := 512

/-- `UINT32_MAX`, the gbm-path size gate in
`vkr_get_fd_info_from_allocation_info`. -/
def UINT32_MAX : Nat := 4294967295

/-- `EMFILE` (too many open files), as mapped to
`VK_ERROR_TOO_MANY_OBJECTS`. -/
def EMFILE : Int := 24

/-- The `VkResult` values the modelled paths produce. -/
inductive VkResult where
  | VK_SUCCESS
  | VK_ERROR_OUT_OF_HOST_MEMORY
  | VK_ERROR_OUT_OF_DEVICE_MEMORY
  | VK_ERROR_TOO_MANY_OBJECTS
deriving DecidableEq

/-- `align(value, alignment)` (util/macros.h): round up to a multiple of
`alignment`.  The C macro `(v + a - 1) & ~(a - 1)` computes exactly this
for the power-of-two alignments it is used with. -/
def align (value alignment : Nat) : Nat :=
  (value + alignment - 1) - (value + alignment - 1) % alignment

/-- The fields of `VkImportMemoryFdInfoKHR` the gbm path fills in. -/
structure VkImportMemoryFdInfoKHR where
  fd : Int
  handleType : Nat
deriving DecidableEq

/-- `vkr_get_fd_info_from_allocation_info` (vkr_context.h part 2,
`ENABLE_MINIGBM_ALLOCATION` branch).  The gbm library is external:
`gbm_bo_create` (from the requested byte size to a buffer-object handle,
`none` on failure) and `gbm_bo_get_fd` (handle to fd, negative errno on
failure) are parameters.  Returns the `VkResult` and, on success, the
buffer object and the import-fd info. -/
def vkr_get_fd_info_from_allocation_info
    (gbm_bo_create : Nat → Option Nat) (gbm_bo_get_fd : Nat → Int)
    (allocationSize : Nat) :
    VkResult × Option (Nat × VkImportMemoryFdInfoKHR) :=
  if allocationSize > UINT32_MAX then
    (.VK_ERROR_OUT_OF_DEVICE_MEMORY, none)
  else
    match gbm_bo_create (align allocationSize 4096) with
    | none => (.VK_ERROR_OUT_OF_DEVICE_MEMORY, none)
    | some gbm_bo =>
      let fd := gbm_bo_get_fd gbm_bo
      if fd < 0 then
        (if fd = -EMFILE then .VK_ERROR_TOO_MANY_OBJECTS
         else .VK_ERROR_OUT_OF_HOST_MEMORY, none)
      else
        (.VK_SUCCESS,
         some (gbm_bo,
           { fd := fd,
             handleType := VK_EXTERNAL_MEMORY_HANDLE_TYPE_DMA_BUF_BIT_EXT }))

/-- The fields of `struct vkr_device_memory` that
`vkr_device_memory_export_blob` reads or writes. -/
structure vkr_device_memory where
  exported : Bool
  property_flags : Nat
  valid_fd_types : Nat
  allocation_size : Nat
  memory_type_index : Nat
  gbm_bo : Option Nat
deriving DecidableEq

/-- The fields of `struct virgl_context_blob` the export path writes:
the fd type, the fd, the host map pointer (set only on the `vkMapMemory`
fallback) and the map cacheability.  `vulkan_info` is left uninitialized
by the source on the dma-buf path and is not modelled (no claim reads
it). -/
structure virgl_context_blob where
  type : Nat
  fd : Int
  map_ptr : Option Nat
  map_info : Nat
deriving DecidableEq

/-- `vkr_device_memory_export_blob` (vkr_context.h part 2, 645-780).
`vkMapMemory_result` models the external `vkMapMemory` call on the
host-map fallback path (`some ptr` on `VK_SUCCESS`).  Returns the blob
on success (`none` = the C function returned `false`) together with the
memory's new state (unchanged on failure - the C code returns before
writing anything).

Mirrors the source: reject an already-exported memory; for a mappable
request require host-visible and report cached iff coherent and cached,
else write-combined; cross-device requires dma-buf; else prefer dma-buf,
then the opaque fd type, else `vkMapMemory` the memory.  The actual fd
export (`GetMemoryFdKHR` / gbm bo fd) is commented out in the source, so
every successful path stores `u.fd = -1` and sets `mem->exported`. -/
def vkr_device_memory_export_blob (mem : vkr_device_memory)
    (blob_size blob_flags : Nat) (vkMapMemory_result : Option Nat) :
    Option virgl_context_blob × vkr_device_memory :=
  if mem.exported then
    (none, mem)
  else
    let mappable := blob_flags &&& VIRGL_RENDERER_BLOB_FLAG_USE_MAPPABLE ≠ 0
    let visible := mem.property_flags &&& VK_MEMORY_PROPERTY_HOST_VISIBLE_BIT ≠ 0
    let coherent := mem.property_flags &&& VK_MEMORY_PROPERTY_HOST_COHERENT_BIT ≠ 0
    let cached := mem.property_flags &&& VK_MEMORY_PROPERTY_HOST_CACHED_BIT ≠ 0
    if mappable ∧ ¬visible then
      (none, mem)
    else
      let map_info :=
        if mappable then
          if coherent ∧ cached then VIRGL_RENDERER_MAP_CACHE_CACHED
          else VIRGL_RENDERER_MAP_CACHE_WC
        else VIRGL_RENDERER_MAP_CACHE_NONE
      let can_export_dma_buf :=
        mem.valid_fd_types &&& (1 <<< VIRGL_RESOURCE_FD_DMABUF) ≠ 0
      let can_export_opaque_fd :=
        mem.valid_fd_types &&& (1 <<< VIRGL_RESOURCE_FD_OPAQUE) ≠ 0
      if blob_flags &&& VIRGL_RENDERER_BLOB_FLAG_USE_CROSS_DEVICE ≠ 0 then
        if ¬can_export_dma_buf then
          (none, mem)
        else
          (some { type := VIRGL_RESOURCE_FD_DMABUF, fd := -1, map_ptr := none,
                  map_info := map_info },
           { mem with exported := true })
      else if can_export_dma_buf then
        (some { type := VIRGL_RESOURCE_FD_DMABUF, fd := -1, map_ptr := none,
                map_info := map_info },
         { mem with exported := true })
      else if can_export_opaque_fd then
        (some { type := VIRGL_RESOURCE_FD_OPAQUE, fd := -1, map_ptr := none,
                map_info := map_info },
         { mem with exported := true })
      else
        match vkMapMemory_result with
        | none => (none, mem)
        | some ptr =>
          (some { type := VIRGL_RESOURCE_OPAQUE_HANDLE, fd := -1,
                  map_ptr := some ptr, map_info := map_info },
           { mem with exported := true })

/-! Helper lemmas. -/

/-- Reading back an in-bounds update. -/
theorem list_getD_set_self {α : Type _} (l : List α) (i : Nat) (a d : α)
    (h : i < l.length) : (l.set i a).getD i d = a := by
  induction l generalizing i with
  | nil => simp at h
  | cons x xs ih =>
    cases i with
    | zero => rfl
    | succ n => exact ih n (Nat.lt_of_succ_lt_succ h)

/-- Reading another index past an update. -/
theorem list_getD_set_ne {α : Type _} (l : List α) (i j : Nat) (a d : α)
    (h : i ≠ j) : (l.set i a).getD j d = l.getD j d := by
  induction l generalizing i j with
  | nil => rfl
  | cons x xs ih =>
    cases i with
    | zero =>
      cases j with
      | zero => exact absurd rfl h
      | succ m => rfl
    | succ n =>
      cases j with
      | zero => rfl
      | succ m => exact ih n m fun hnm => h (congrArg Nat.succ hnm)

/-- Reading a replicated list with its element as the default. -/
theorem list_getD_replicate {α : Type _} (n i : Nat) (d : α) :
    (List.replicate n d).getD i d = d := by
  induction n generalizing i with
  | zero => rfl
  | succ m ih =>
    cases i with
    | zero => rfl
    | succ k => exact ih k

/-- The retirement loop splits the fence list at the first unsignaled
fence: it pops exactly the maximal signaled prefix, in order, and keeps
everything from the first unsignaled fence on. -/
theorem retire_fence_walk_eq_span (cur : Nat) (fences : List venus_fence) :
    retire_fence_walk cur fences =
      (fences.takeWhile (fun f => venus_fence_is_signaled f cur),
       fences.dropWhile (fun f => venus_fence_is_signaled f cur)) := by
  induction fences with
  | nil => rfl
  | cons f rest ih =>
    by_cases hs : venus_fence_is_signaled f cur
    · simp [retire_fence_walk, List.takeWhile, List.dropWhile, hs, ih]
    · simp [retire_fence_walk, List.takeWhile, List.dropWhile, hs]

/-- The popped prefix and the remainder reassemble the original list. -/
theorem retire_fence_walk_append (cur : Nat) (fences : List venus_fence) :
    (retire_fence_walk cur fences).1 ++ (retire_fence_walk cur fences).2 =
      fences := by
  rw [retire_fence_walk_eq_span]
  exact List.takeWhile_append_dropWhile _ _

/-- `ring_retired` distributes over event concatenation. -/
theorem ring_retired_append (r : Nat) (es es' : List venus_event) :
    ring_retired r (es ++ es') = ring_retired r es ++ ring_retired r es' := by
  simp [ring_retired]

/-- `ring_submitted` distributes over event concatenation. -/
theorem ring_submitted_append (r : Nat) (es es' : List venus_event) :
    ring_submitted r (es ++ es') = ring_submitted r es ++ ring_submitted r es' := by
  simp [ring_submitted]

/-- A submission event on a ring is seen by that ring's filter. -/
theorem ring_submitted_single_self (r s fid : Nat) :
    ring_submitted r [⟨.submitted, r, s, fid⟩] = [(s, fid)] := by
  simp [ring_submitted]

/-- A submission event on another ring is invisible. -/
theorem ring_submitted_single_ne (r r' s fid : Nat) (h : r ≠ r') :
    ring_submitted r' [⟨.submitted, r, s, fid⟩] = [] := by
  simp [ring_submitted, h]

/-- A submission event is never a retire callback. -/
theorem ring_retired_single_submitted (r r' s fid : Nat) :
    ring_retired r' [⟨.submitted, r, s, fid⟩] = [] := by
  simp [ring_retired]

/-- The callbacks a walk fires on its own ring, as (seqno, fence_id). -/
theorem ring_retired_map_self (r : Nat) (l : List venus_fence) :
    ring_retired r (l.map fun f => ⟨.retired, r, f.seqno, f.fence_id⟩) =
      l.map fun f => (f.seqno, f.fence_id) := by
  induction l with
  | nil => rfl
  | cons f rest ih => simp only [List.map_cons, ring_retired] at ih ⊢; simp [ih]

/-- A walk on another ring fires no callback visible to this ring. -/
theorem ring_retired_map_ne (r r' : Nat) (h : r ≠ r') (l : List venus_fence) :
    ring_retired r' (l.map fun f => ⟨.retired, r, f.seqno, f.fence_id⟩) = [] := by
  induction l with
  | nil => rfl
  | cons f rest ih => simp only [List.map_cons, ring_retired] at ih ⊢; simp [ih, h]

/-- Retire callbacks are not submissions. -/
theorem ring_submitted_map_retired (r r' : Nat) (l : List venus_fence) :
    ring_submitted r' (l.map fun f => ⟨.retired, r, f.seqno, f.fence_id⟩) = [] := by
  induction l with
  | nil => rfl
  | cons f rest ih => simp only [List.map_cons, ring_submitted] at ih ⊢; simp [ih]


/-- Unfolding `venus_step` on an out-of-range submission: `-EINVAL`,
no state change, no event. -/
theorem venus_step_submit_oob (ctx : venus_context) (flags r fid : Nat)
    (ok : Bool) (hr : VENUS_CONTEXT_TIMELINE_COUNT ≤ r) :
    venus_step ctx (.submit_fence flags r fid ok) = (ctx, []) := by
  simp only [venus_step, venus_context_submit_fence, ge_iff_le]
  split_ifs <;> first
    | rfl
    | exact absurd
        (And.left (by assumption : r < VENUS_CONTEXT_TIMELINE_COUNT ∧ ok = true))
        (Nat.not_lt.mpr hr)

/-- Unfolding `venus_step` on a successful in-range submission. -/
theorem venus_step_submit_ok (ctx : venus_context) (flags r fid : Nat)
    (hr : r < VENUS_CONTEXT_TIMELINE_COUNT) :
    venus_step ctx (.submit_fence flags r fid true) =
      ({ ctx with
          timelines := ctx.timelines.set r
            { cur_seqno := (ctx.timelines.getD r default).cur_seqno,
              next_seqno := u32 ((ctx.timelines.getD r default).next_seqno + 1),
              fences := (ctx.timelines.getD r default).fences ++
                [⟨flags, (ctx.timelines.getD r default).next_seqno, fid⟩] },
          timeline_busy_mask := ctx.timeline_busy_mask ||| 2 ^ r,
          free_fences := ctx.free_fences.tail },
       [⟨.submitted, r, (ctx.timelines.getD r default).next_seqno, fid⟩]) := by
  simp only [venus_step, venus_context_submit_fence, ge_iff_le]
  split_ifs <;> first
    | rfl
    | exact absurd hr (Nat.not_lt.mpr (by assumption))
    | exact absurd trivial (by assumption)
    | exact absurd (⟨hr, trivial⟩ : r < VENUS_CONTEXT_TIMELINE_COUNT ∧ True)
        (by assumption)

/-- Unfolding `venus_step` on an in-range submission the driver rejects:
the fence list and busy mask are restored, `next_seqno` stays bumped, the
fence lands on the free pool, and no event is emitted. -/
theorem venus_step_submit_fail (ctx : venus_context) (flags r fid : Nat)
    (hr : r < VENUS_CONTEXT_TIMELINE_COUNT) :
    venus_step ctx (.submit_fence flags r fid false) =
      ({ ctx with
          timelines := ctx.timelines.set r
            { cur_seqno := (ctx.timelines.getD r default).cur_seqno,
              next_seqno := u32 ((ctx.timelines.getD r default).next_seqno + 1),
              fences := (ctx.timelines.getD r default).fences },
          free_fences := ⟨flags, (ctx.timelines.getD r default).next_seqno, fid⟩ ::
            ctx.free_fences.tail },
       []) := by
  simp only [venus_step, venus_context_submit_fence, ge_iff_le]
  split_ifs <;> first
    | rfl
    | exact absurd hr (Nat.not_lt.mpr (by assumption))
    | exact (by assumption : False).elim
    | exact (And.right
        (by assumption : r < VENUS_CONTEXT_TIMELINE_COUNT ∧ False)).elim

/-- Unfolding `venus_step` on a retire callback. -/
theorem venus_step_on_retire (ctx : venus_context) (r fid : Nat) :
    venus_step ctx (.on_retire r fid) =
      ({ ctx with
          timelines := ctx.timelines.set r
            { cur_seqno := u32 fid,
              next_seqno := (ctx.timelines.getD r default).next_seqno,
              fences := (retire_fence_walk (u32 fid)
                (ctx.timelines.getD r default).fences).2 },
          free_fences := (retire_fence_walk (u32 fid)
            (ctx.timelines.getD r default).fences).1.reverse ++ ctx.free_fences },
       (retire_fence_walk (u32 fid) (ctx.timelines.getD r default).fences).1.map
         fun f => ⟨.retired, r, f.seqno, f.fence_id⟩) :=
  rfl

/-- One operation preserves the in-order retirement invariant. -/
theorem venus_inv_step (ctx : venus_context) (es : List venus_event)
    (op : venus_op) (h : venus_inv ctx es) :
    venus_inv (venus_step ctx op).1 (es ++ (venus_step ctx op).2) := by
  obtain ⟨hlen, hring⟩ := h
  cases op with
  | submit_fence flags r fid ok =>
    by_cases hr : r < VENUS_CONTEXT_TIMELINE_COUNT
    · cases ok with
      | true =>
        rw [venus_step_submit_ok ctx flags r fid hr]
        refine ⟨by simp [hlen], fun r' hr' => ?_⟩
        rw [ring_submitted_append, ring_retired_append,
          ring_retired_single_submitted, List.append_nil]
        by_cases hrr : r = r'
        · subst hrr
          rw [ring_submitted_single_self]
          have hinfl : ring_inflight
              ({ ctx with
                  timelines := ctx.timelines.set r
                    { cur_seqno := (ctx.timelines.getD r default).cur_seqno,
                      next_seqno :=
                        u32 ((ctx.timelines.getD r default).next_seqno + 1),
                      fences := (ctx.timelines.getD r default).fences ++
                        [⟨flags, (ctx.timelines.getD r default).next_seqno, fid⟩] },
                  timeline_busy_mask := ctx.timeline_busy_mask ||| 2 ^ r,
                  free_fences := ctx.free_fences.tail }) r =
              ring_inflight ctx r ++
                [((ctx.timelines.getD r default).next_seqno, fid)] := by
            unfold ring_inflight
            rw [list_getD_set_self _ _ _ _ (by rw [hlen]; exact hr')]
            simp
          rw [hinfl, hring r hr', List.append_assoc]
        · rw [ring_submitted_single_ne _ _ _ _ hrr, List.append_nil,
            hring r' hr']
          have hinfl : ring_inflight
              ({ ctx with
                  timelines := ctx.timelines.set r
                    { cur_seqno := (ctx.timelines.getD r default).cur_seqno,
                      next_seqno :=
                        u32 ((ctx.timelines.getD r default).next_seqno + 1),
                      fences := (ctx.timelines.getD r default).fences ++
                        [⟨flags, (ctx.timelines.getD r default).next_seqno, fid⟩] },
                  timeline_busy_mask := ctx.timeline_busy_mask ||| 2 ^ r,
                  free_fences := ctx.free_fences.tail }) r' =
              ring_inflight ctx r' := by
            unfold ring_inflight
            rw [list_getD_set_ne _ _ _ _ _ hrr]
          rw [hinfl]
      | false =>
        rw [venus_step_submit_fail ctx flags r fid hr]
        refine ⟨by simp [hlen], fun r' hr' => ?_⟩
        rw [List.append_nil, hring r' hr']
        by_cases hrr : r = r'
        · subst hrr
          have hinfl : ring_inflight
              ({ ctx with
                  timelines := ctx.timelines.set r
                    { cur_seqno := (ctx.timelines.getD r default).cur_seqno,
                      next_seqno :=
                        u32 ((ctx.timelines.getD r default).next_seqno + 1),
                      fences := (ctx.timelines.getD r default).fences },
                  free_fences :=
                    ⟨flags, (ctx.timelines.getD r default).next_seqno, fid⟩ ::
                      ctx.free_fences.tail }) r = ring_inflight ctx r := by
            unfold ring_inflight
            rw [list_getD_set_self _ _ _ _ (by rw [hlen]; exact hr')]
          rw [hinfl]
        · have hinfl : ring_inflight
              ({ ctx with
                  timelines := ctx.timelines.set r
                    { cur_seqno := (ctx.timelines.getD r default).cur_seqno,
                      next_seqno :=
                        u32 ((ctx.timelines.getD r default).next_seqno + 1),
                      fences := (ctx.timelines.getD r default).fences },
                  free_fences :=
                    ⟨flags, (ctx.timelines.getD r default).next_seqno, fid⟩ ::
                      ctx.free_fences.tail }) r' = ring_inflight ctx r' := by
            unfold ring_inflight
            rw [list_getD_set_ne _ _ _ _ _ hrr]
          rw [hinfl]
    · rw [venus_step_submit_oob ctx flags r fid ok (Nat.not_lt.mp hr)]
      exact ⟨hlen, by simpa using hring⟩
  | on_retire r fid =>
    rw [venus_step_on_retire]
    refine ⟨by simp [hlen], fun r' hr' => ?_⟩
    rw [ring_submitted_append, ring_retired_append, ring_submitted_map_retired,
      List.append_nil]
    by_cases hrr : r = r'
    · subst hrr
      rw [ring_retired_map_self]
      have hinfl : ring_inflight
          ({ ctx with
              timelines := ctx.timelines.set r
                { cur_seqno := u32 fid,
                  next_seqno := (ctx.timelines.getD r default).next_seqno,
                  fences := (retire_fence_walk (u32 fid)
                    (ctx.timelines.getD r default).fences).2 },
              free_fences := (retire_fence_walk (u32 fid)
                (ctx.timelines.getD r default).fences).1.reverse ++
                  ctx.free_fences }) r =
          (retire_fence_walk (u32 fid)
            (ctx.timelines.getD r default).fences).2.map
              fun f => (f.seqno, f.fence_id) := by
        unfold ring_inflight
        rw [list_getD_set_self _ _ _ _ (by rw [hlen]; exact hr')]
      rw [hinfl, hring r hr', List.append_assoc]
      have hsplit : ring_inflight ctx r =
          ((retire_fence_walk (u32 fid)
              (ctx.timelines.getD r default).fences).1.map
            fun f => (f.seqno, f.fence_id)) ++
          ((retire_fence_walk (u32 fid)
              (ctx.timelines.getD r default).fences).2.map
            fun f => (f.seqno, f.fence_id)) := by
        unfold ring_inflight
        rw [← List.map_append]
        exact congrArg (List.map _) (retire_fence_walk_append _ _).symm
      rw [hsplit]
    · rw [ring_retired_map_ne _ _ hrr, List.append_nil, hring r' hr']
      have hinfl : ring_inflight
          ({ ctx with
              timelines := ctx.timelines.set r
                { cur_seqno := u32 fid,
                  next_seqno := (ctx.timelines.getD r default).next_seqno,
                  fences := (retire_fence_walk (u32 fid)
                    (ctx.timelines.getD r default).fences).2 },
              free_fences := (retire_fence_walk (u32 fid)
                (ctx.timelines.getD r default).fences).1.reverse ++
                  ctx.free_fences }) r' = ring_inflight ctx r' := by
        unfold ring_inflight
        rw [list_getD_set_ne _ _ _ _ _ hrr]
      rw [hinfl]
  | retire_all =>
    refine ⟨hlen, fun r' hr' => ?_⟩
    simpa [venus_step, venus_context_retire_fences] using hring r' hr'

/-- Running any operation sequence preserves the invariant. -/
theorem venus_inv_run (ctx : venus_context) (es : List venus_event)
    (ops : List venus_op) (h : venus_inv ctx es) :
    venus_inv (venus_run ctx ops).1 (es ++ (venus_run ctx ops).2) := by
  induction ops generalizing ctx es with
  | nil => simpa [venus_run] using h
  | cons op ops ih =>
    simp only [venus_run]
    have := ih (venus_step ctx op).1 (es ++ (venus_step ctx op).2)
      (venus_inv_step ctx es op h)
    simpa [List.append_assoc] using this

/-- A freshly created context satisfies the invariant with no events. -/
theorem venus_inv_initial (ctx_id : Nat) :
    venus_inv (venus_initial_context ctx_id) [] := by
  refine ⟨by simp [venus_initial_context], fun r hr => ?_⟩
  have hd : ((List.replicate VENUS_CONTEXT_TIMELINE_COUNT
      (default : venus_timeline)).getD r default) = default :=
    list_getD_replicate _ _ _
  simp [ring_submitted, ring_retired, ring_inflight, venus_initial_context, hd]
  rfl

/-! The claims. -/

/-- C1 counterexample: a fence whose wraparound delta `(uint32)(cur - s)`
is exactly `2^31 - 1` is NOT signaled by `venus_fence_is_signaled` (the
source compares `d < INT32_MAX`, i.e. `d < 2^31 - 1`, not `d < 2^31`),
and the retirement walk fires no callback for it and leaves it in
flight, contrary to the claim. -/
theorem venus_fence_boundary_counterexample :
    u32_sub 2147483647 0 = 2 ^ 31 - 1 ∧
    venus_fence_is_signaled ⟨0, 0, 5⟩ 2147483647 = false ∧
    (venus_run (venus_initial_context 1)
      [.submit_fence 0 0 5 true, .on_retire 0 2147483647]).2 =
      [⟨.submitted, 0, 0, 5⟩] ∧
    ((venus_run (venus_initial_context 1)
      [.submit_fence 0 0 5 true, .on_retire 0 2147483647]).1.timelines.getD
        0 default).fences = [⟨0, 0, 5⟩] :=
  ⟨by decide, by decide, by decide, by decide⟩

/-- C1 (amended): the retirement walk pops a fence exactly while the
delta rule with threshold `2^31 - 1` holds: a fence is signaled iff
`(uint32)(cur - s) < 2^31 - 1`, and the walk splits the in-order fence
list at the first fence violating that bound; a fence whose delta equals
exactly `2^31 - 1` is unsignaled and is not retired. -/
theorem venus_fence_signaled_delta_rule :
    (∀ (fence : venus_fence) (cur : Nat),
      venus_fence_is_signaled fence cur = true ↔
        u32_sub cur fence.seqno < 2 ^ 31 - 1) ∧
    (∀ (cur : Nat) (fences : List venus_fence),
      retire_fence_walk cur fences =
        (fences.takeWhile fun f => u32_sub cur f.seqno < 2 ^ 31 - 1,
         fences.dropWhile fun f => u32_sub cur f.seqno < 2 ^ 31 - 1)) ∧
    (∀ (fence : venus_fence) (cur : Nat),
      u32_sub cur fence.seqno = 2 ^ 31 - 1 →
      venus_fence_is_signaled fence cur = false) := by
  have hpred : ∀ cur : Nat, (fun f => venus_fence_is_signaled f cur) =
      fun f : venus_fence => decide (u32_sub cur f.seqno < 2 ^ 31 - 1) := by
    intro cur
    funext f
    simp only [venus_fence_is_signaled, INT32_MAX]
    exact decide_eq_decide.mpr (by norm_num)
  refine ⟨?_, ?_, ?_⟩
  · intro fence cur
    simp only [venus_fence_is_signaled, INT32_MAX]
    norm_num
  · intro cur fences
    rw [retire_fence_walk_eq_span, hpred cur]
  · intro fence cur h
    simp only [venus_fence_is_signaled, INT32_MAX, h]
    norm_num

/-- C2 (code bug): submit one fence on ring 0, then retire it through the
driver's callback path.  Timeline 0's fence list is empty, yet bit 0 of
`timeline_busy_mask` is still set, and `venus_context_retire_fences`
(the only place the disabled code would clear busy bits) changes
nothing: the busy mask does not track "which timelines have fences" once
a retire empties a list. -/
theorem venus_busy_mask_not_cleared :
    ((venus_run (venus_initial_context 1)
      [.submit_fence 0 0 7 true, .on_retire 0 7]).1.timelines.getD 0
        default).fences = [] ∧
    (venus_run (venus_initial_context 1)
      [.submit_fence 0 0 7 true, .on_retire 0 7]).1.timeline_busy_mask = 1 ∧
    venus_context_retire_fences (venus_run (venus_initial_context 1)
      [.submit_fence 0 0 7 true, .on_retire 0 7]).1 =
      (venus_run (venus_initial_context 1)
        [.submit_fence 0 0 7 true, .on_retire 0 7]).1 :=
  ⟨by decide, by decide, rfl⟩

/-- Unfolding `venus_context_submit_fence` itself on a driver failure. -/
theorem venus_context_submit_fence_fail_eq (ctx : venus_context)
    (flags r fid : Nat) (hr : r < VENUS_CONTEXT_TIMELINE_COUNT) :
    venus_context_submit_fence ctx flags r fid false =
      (-1,
       { ctx with
          timelines := ctx.timelines.set r
            { cur_seqno := (ctx.timelines.getD r default).cur_seqno,
              next_seqno := u32 ((ctx.timelines.getD r default).next_seqno + 1),
              fences := (ctx.timelines.getD r default).fences },
          free_fences := ⟨flags, (ctx.timelines.getD r default).next_seqno, fid⟩ ::
            ctx.free_fences.tail },
       true) := by
  simp only [venus_context_submit_fence, ge_iff_le]
  split_ifs <;> first
    | rfl
    | exact absurd hr (Nat.not_lt.mpr (by assumption))
    | exact (by assumption : False).elim

/-- C3 counterexample: on a fresh context, a submission the driver
rejects leaves `next_seqno` of the timeline incremented (1, not the
pre-call 0), so the failed call does not restore all context state. -/
theorem venus_submit_fence_rollback_counterexample :
    ((venus_context_submit_fence (venus_initial_context 1) 0 0 9
        false).2.1.timelines.getD 0 default).next_seqno = 1 ∧
    ((venus_initial_context 1).timelines.getD 0 default).next_seqno = 0 ∧
    (venus_context_submit_fence (venus_initial_context 1) 0 0 9 false).2.1 ≠
      venus_initial_context 1 :=
  ⟨by decide, by decide, by decide⟩

/-- C3 (amended): when the driver's submit hook fails,
`venus_context_submit_fence` returns the failure (-1) and undoes the
list insertion and the busy-mask bit - the fence list, `cur_seqno` and
the busy mask equal their pre-call values and other timelines are
untouched - but the timeline's `next_seqno` remains incremented by one
(mod 2^32) and the failed fence is pushed onto the free-fence pool. -/
theorem venus_submit_fence_rollback (ctx : venus_context)
    (flags r fid : Nat) (hr : r < VENUS_CONTEXT_TIMELINE_COUNT)
    (hlen : ctx.timelines.length = VENUS_CONTEXT_TIMELINE_COUNT) :
    (venus_context_submit_fence ctx flags r fid false).1 = -1 ∧
    (venus_context_submit_fence ctx flags r fid false).2.2 = true ∧
    (venus_context_submit_fence ctx flags r fid false).2.1.timeline_busy_mask =
      ctx.timeline_busy_mask ∧
    ((venus_context_submit_fence ctx flags r fid false).2.1.timelines.getD r
        default).fences = (ctx.timelines.getD r default).fences ∧
    ((venus_context_submit_fence ctx flags r fid false).2.1.timelines.getD r
        default).cur_seqno = (ctx.timelines.getD r default).cur_seqno ∧
    ((venus_context_submit_fence ctx flags r fid false).2.1.timelines.getD r
        default).next_seqno =
      u32 ((ctx.timelines.getD r default).next_seqno + 1) ∧
    (∀ r', r' ≠ r →
      (venus_context_submit_fence ctx flags r fid false).2.1.timelines.getD r'
        default = ctx.timelines.getD r' default) ∧
    (venus_context_submit_fence ctx flags r fid false).2.1.free_fences =
      ⟨flags, (ctx.timelines.getD r default).next_seqno, fid⟩ ::
        ctx.free_fences.tail ∧
    (venus_context_submit_fence ctx flags r fid false).2.1.ctx_id = ctx.ctx_id := by
  rw [venus_context_submit_fence_fail_eq ctx flags r fid hr]
  have hset : ((ctx.timelines.set r
      { cur_seqno := (ctx.timelines.getD r default).cur_seqno,
        next_seqno := u32 ((ctx.timelines.getD r default).next_seqno + 1),
        fences := (ctx.timelines.getD r default).fences }).getD r default) =
      { cur_seqno := (ctx.timelines.getD r default).cur_seqno,
        next_seqno := u32 ((ctx.timelines.getD r default).next_seqno + 1),
        fences := (ctx.timelines.getD r default).fences } :=
    list_getD_set_self _ _ _ _ (by rw [hlen]; exact hr)
  refine ⟨rfl, rfl, rfl, ?_, ?_, ?_, ?_, rfl, rfl⟩
  · rw [hset]
  · rw [hset]
  · rw [hset]
  · intro r' hrr
    exact list_getD_set_ne _ _ _ _ _ (fun h => hrr h.symm)

/-- C3 witness: the amended rollback theorem applied to a fresh context
at ring 0. -/
theorem venus_submit_fence_rollback_witness :
    (venus_context_submit_fence (venus_initial_context 1) 0 0 9 false).1 = -1 ∧
    (venus_context_submit_fence (venus_initial_context 1) 0 0 9
        false).2.1.timeline_busy_mask =
      (venus_initial_context 1).timeline_busy_mask :=
  ⟨(venus_submit_fence_rollback (venus_initial_context 1) 0 0 9 (by decide)
      (by decide)).1,
   (venus_submit_fence_rollback (venus_initial_context 1) 0 0 9 (by decide)
      (by decide)).2.2.1⟩

/-- C4: on every ring, retire callbacks fire in exactly the order the
fences were submitted - after any operation sequence the retired
(seqno, fence_id) pairs of a ring are a prefix of its successful
submissions, so callbacks follow the timeline's seqno order with none
skipped or reordered; a single walk pops only the maximal signaled
prefix, stopping at the first unsignaled fence; and the spec's example
(fence_ids 10, 11, 12 on ring 0, then one retire at fence_id 12) fires
callbacks 10, 11, 12 in that order with strictly ascending seqnos
0, 1, 2. -/
theorem venus_retire_in_order :
    (∀ (ctx_id : Nat) (ops : List venus_op) (r : Nat),
      r < VENUS_CONTEXT_TIMELINE_COUNT →
      ∃ pending,
        ring_submitted r (venus_run (venus_initial_context ctx_id) ops).2 =
          ring_retired r (venus_run (venus_initial_context ctx_id) ops).2 ++
            pending) ∧
    (∀ (cur : Nat) (fences : List venus_fence),
      retire_fence_walk cur fences =
        (fences.takeWhile fun f => venus_fence_is_signaled f cur,
         fences.dropWhile fun f => venus_fence_is_signaled f cur)) ∧
    ring_retired 0 (venus_run (venus_initial_context 1)
      [.submit_fence 0 0 10 true, .submit_fence 0 0 11 true,
       .submit_fence 0 0 12 true, .on_retire 0 12]).2 =
      [(0, 10), (1, 11), (2, 12)] := by
  refine ⟨?_, retire_fence_walk_eq_span, by decide⟩
  intro cid ops r hr
  have h := venus_inv_run (venus_initial_context cid) [] ops
    (venus_inv_initial cid)
  exact ⟨ring_inflight (venus_run (venus_initial_context cid) ops).1 r,
    by simpa using h.2 r hr⟩

/-- C4 witness: the prefix property applied to the concrete
three-fence trace on ring 0. -/
theorem venus_retire_in_order_witness :
    ∃ pending,
      ring_submitted 0 (venus_run (venus_initial_context 1)
        [.submit_fence 0 0 10 true, .submit_fence 0 0 11 true,
         .submit_fence 0 0 12 true, .on_retire 0 12]).2 =
        ring_retired 0 (venus_run (venus_initial_context 1)
          [.submit_fence 0 0 10 true, .submit_fence 0 0 11 true,
           .submit_fence 0 0 12 true, .on_retire 0 12]).2 ++ pending :=
  venus_retire_in_order.1 1
    [.submit_fence 0 0 10 true, .submit_fence 0 0 11 true,
     .submit_fence 0 0 12 true, .on_retire 0 12] 0 (by decide)

/-- C5 counterexample: a mappable export of a host-visible,
coherent-but-not-cached, dma-buf-exportable, never-exported memory
succeeds with type dma_buf and map_info write-combined, but the blob's
fd is -1, not a valid file descriptor: the actual fd export
(`GetMemoryFdKHR` / gbm bo fd) is commented out in the source. -/
theorem vkr_export_blob_fd_counterexample :
    (vkr_device_memory_export_blob ⟨false, 6, 2, 65536, 0, none⟩ 65536 1
        none).1 =
      some ⟨VIRGL_RESOURCE_FD_DMABUF, -1, none, VIRGL_RENDERER_MAP_CACHE_WC⟩ ∧
    ((-1 : Int) < 0) :=
  ⟨by decide, by decide⟩

/-- C5 (amended): for a not-yet-exported memory whose `valid_fd_types`
permits dma-buf export, a mappable request on host-visible memory
succeeds and returns a blob with type dma_buf and fd = -1 (no fd is
produced; the export code is stubbed out), with map_info cached iff the
memory is both host-coherent and host-cached, else write-combined; the
memory is marked exported. -/
theorem vkr_export_blob_dma_buf_mappable (mem : vkr_device_memory)
    (blob_size blob_flags : Nat) (pm : Option Nat)
    (hex : mem.exported = false)
    (hdma : mem.valid_fd_types &&& (1 <<< VIRGL_RESOURCE_FD_DMABUF) ≠ 0)
    (hmap : blob_flags &&& VIRGL_RENDERER_BLOB_FLAG_USE_MAPPABLE ≠ 0)
    (hvis : mem.property_flags &&& VK_MEMORY_PROPERTY_HOST_VISIBLE_BIT ≠ 0) :
    vkr_device_memory_export_blob mem blob_size blob_flags pm =
      (some ⟨VIRGL_RESOURCE_FD_DMABUF, -1, none,
        if mem.property_flags &&& VK_MEMORY_PROPERTY_HOST_COHERENT_BIT ≠ 0 ∧
            mem.property_flags &&& VK_MEMORY_PROPERTY_HOST_CACHED_BIT ≠ 0
        then VIRGL_RENDERER_MAP_CACHE_CACHED
        else VIRGL_RENDERER_MAP_CACHE_WC⟩,
       { mem with exported := true }) := by
  simp only [vkr_device_memory_export_blob, hex, Bool.false_eq_true, if_false,
    hmap, hvis, hdma, not_true, and_false, not_false_iff, and_true, true_and,
    if_true, ite_true, ite_false]
  split_ifs with h1 h2 <;> first
    | rfl
    | exact absurd hvis h1.2

/-- C5 witness: the amended export theorem applied to a concrete
coherent-only memory. -/
theorem vkr_export_blob_dma_buf_mappable_witness :
    vkr_device_memory_export_blob ⟨false, 6, 2, 65536, 0, none⟩ 65536 1 none =
      (some ⟨VIRGL_RESOURCE_FD_DMABUF, -1, none, VIRGL_RENDERER_MAP_CACHE_WC⟩,
       ⟨true, 6, 2, 65536, 0, none⟩) := by
  rw [vkr_export_blob_dma_buf_mappable ⟨false, 6, 2, 65536, 0, none⟩ 65536 1
    none (by decide) (by decide) (by decide) (by decide)]
  decide

/-- Every successful export path marks the memory exported. -/
theorem vkr_export_blob_success_marks (mem : vkr_device_memory)
    (bs bf : Nat) (pm : Option Nat)
    (h : (vkr_device_memory_export_blob mem bs bf pm).1.isSome = true) :
    (vkr_device_memory_export_blob mem bs bf pm).2 =
      { mem with exported := true } := by
  by_cases hme : mem.exported = true
  · simp [vkr_device_memory_export_blob, hme] at h
  · simp only [vkr_device_memory_export_blob, hme, Bool.false_eq_true,
      if_false] at h ⊢
    by_cases c1 : bf &&& VIRGL_RENDERER_BLOB_FLAG_USE_MAPPABLE ≠ 0 ∧
        ¬(mem.property_flags &&& VK_MEMORY_PROPERTY_HOST_VISIBLE_BIT ≠ 0)
    · rw [if_pos c1] at h
      simp at h
    · rw [if_neg c1] at h ⊢
      by_cases c2 : bf &&& VIRGL_RENDERER_BLOB_FLAG_USE_CROSS_DEVICE ≠ 0
      · rw [if_pos c2] at h ⊢
        by_cases c3 : ¬(mem.valid_fd_types &&& (1 <<< VIRGL_RESOURCE_FD_DMABUF) ≠ 0)
        · rw [if_pos c3] at h
          simp at h
        · rw [if_neg c3]
      · rw [if_neg c2] at h ⊢
        by_cases c4 : mem.valid_fd_types &&& (1 <<< VIRGL_RESOURCE_FD_DMABUF) ≠ 0
        · rw [if_pos c4]
        · rw [if_neg c4] at h ⊢
          by_cases c5 : mem.valid_fd_types &&& (1 <<< VIRGL_RESOURCE_FD_OPAQUE) ≠ 0
          · rw [if_pos c5]
          · rw [if_neg c5] at h ⊢
            cases pm with
            | none => simp at h
            | some ptr => rfl

/-- C6: at most one export succeeds per device memory.  An
already-exported memory fails every further `export_blob` with its state
untouched, and every successful export marks the memory exported, so
all subsequent calls (any size, flags or map outcome) fail and change
nothing - the exported flag is sticky. -/
theorem vkr_export_blob_at_most_once :
    (∀ (mem : vkr_device_memory) (bs bf : Nat) (pm : Option Nat),
      mem.exported = true →
      vkr_device_memory_export_blob mem bs bf pm = (none, mem)) ∧
    (∀ (mem : vkr_device_memory) (bs bf : Nat) (pm : Option Nat)
        (blob : virgl_context_blob) (mem' : vkr_device_memory),
      vkr_device_memory_export_blob mem bs bf pm = (some blob, mem') →
      mem'.exported = true ∧
      ∀ (bs' bf' : Nat) (pm' : Option Nat),
        vkr_device_memory_export_blob mem' bs' bf' pm' = (none, mem')) := by
  have hfail : ∀ (mem : vkr_device_memory) (bs bf : Nat) (pm : Option Nat),
      mem.exported = true →
      vkr_device_memory_export_blob mem bs bf pm = (none, mem) := by
    intro mem bs bf pm h
    simp [vkr_device_memory_export_blob, h]
  refine ⟨hfail, ?_⟩
  intro mem bs bf pm blob mem' hsucc
  have h1 : (vkr_device_memory_export_blob mem bs bf pm).1 = some blob :=
    congrArg Prod.fst hsucc
  have h2 : (vkr_device_memory_export_blob mem bs bf pm).2 = mem' :=
    congrArg Prod.snd hsucc
  have h3 := vkr_export_blob_success_marks mem bs bf pm (by rw [h1]; rfl)
  have hexp : mem'.exported = true := by rw [← h2, h3]
  exact ⟨hexp, fun bs' bf' pm' => hfail mem' bs' bf' pm' hexp⟩

/-- C6 witness: the failure branch of the at-most-once theorem applied
to a concrete already-exported memory. -/
theorem vkr_export_blob_at_most_once_witness :
    vkr_device_memory_export_blob ⟨true, 6, 2, 65536, 0, none⟩ 65536 1 none =
      (none, ⟨true, 6, 2, 65536, 0, none⟩) :=
  vkr_export_blob_at_most_once.1 ⟨true, 6, 2, 65536, 0, none⟩ 65536 1 none rfl

/-- C7: the gbm-path size gate is exact at the 32-bit boundary.  Any
request strictly over `2^32 - 1` bytes fails with out-of-device-memory
for every allocator (so before any allocation is attempted); a request
of exactly `2^32 - 1` bytes passes the gate, asks the allocator for the
size rounded up to 4096 (here exactly `2^32`) and succeeds whenever the
allocator returns a buffer object with a valid fd; and the rounded size
is always a multiple of 4096 at least as large as the request. -/
theorem vkr_gbm_size_gate :
    (∀ (gbm_bo_create : Nat → Option Nat) (gbm_bo_get_fd : Nat → Int)
        (sz : Nat), UINT32_MAX < sz →
      vkr_get_fd_info_from_allocation_info gbm_bo_create gbm_bo_get_fd sz =
        (.VK_ERROR_OUT_OF_DEVICE_MEMORY, none)) ∧
    (∀ (gbm_bo_create : Nat → Option Nat) (gbm_bo_get_fd : Nat → Int)
        (bo : Nat),
      gbm_bo_create (align UINT32_MAX 4096) = some bo →
      0 ≤ gbm_bo_get_fd bo →
      vkr_get_fd_info_from_allocation_info gbm_bo_create gbm_bo_get_fd
          UINT32_MAX =
        (.VK_SUCCESS, some (bo, ⟨gbm_bo_get_fd bo,
          VK_EXTERNAL_MEMORY_HANDLE_TYPE_DMA_BUF_BIT_EXT⟩))) ∧
    align UINT32_MAX 4096 = 2 ^ 32 ∧
    (∀ sz : Nat, sz ≤ align sz 4096 ∧ align sz 4096 % 4096 = 0) := by
  refine ⟨?_, ?_, by decide, ?_⟩
  · intro create getfd sz hsz
    simp only [vkr_get_fd_info_from_allocation_info, if_pos hsz]
  · intro create getfd bo hcreate hfd
    have hgate : ¬ (UINT32_MAX > UINT32_MAX) := lt_irrefl _
    simp only [vkr_get_fd_info_from_allocation_info, gt_iff_lt, if_neg hgate,
      hcreate, if_neg (not_lt.mpr hfd)]
  · intro sz
    have h1 : (sz + 4096 - 1) % 4096 < 4096 := Nat.mod_lt _ (by norm_num)
    have h2 : (sz + 4096 - 1) % 4096 + 4096 * ((sz + 4096 - 1) / 4096) =
        sz + 4096 - 1 := Nat.mod_add_div _ _
    constructor
    · unfold align
      omega
    · unfold align
      have h3 : sz + 4096 - 1 - (sz + 4096 - 1) % 4096 =
          4096 * ((sz + 4096 - 1) / 4096) := by omega
      rw [h3, Nat.mul_mod_right]

/-- C7 witness: the gbm success path at the boundary size `2^32 - 1`
with a concrete allocator. -/
theorem vkr_gbm_size_gate_witness :
    vkr_get_fd_info_from_allocation_info (fun _ => some 7) (fun _ => 3)
        UINT32_MAX =
      (.VK_SUCCESS, some (7, ⟨3, VK_EXTERNAL_MEMORY_HANDLE_TYPE_DMA_BUF_BIT_EXT⟩)) := by
  have h := vkr_gbm_size_gate.2.1 (fun _ => some 7) (fun _ => 3) 7 rfl
    (by decide)
  simpa using h

/-- C8 counterexample: with one registered context (ctx_id 1), the
driver's retire callback invoked with the unknown ctx_id 2 does not
return normally leaving the contexts untouched (the claimed log-and-
swallow): the lookup finds nothing and the callback runs into
`assert(ctx)` followed by a null dereference, modelled as `none`. -/
theorem venus_retire_unknown_ctx_counterexample :
    venus_lookup_context [venus_initial_context 1] 2 = none ∧
    venus_state_cb_retire_fence [venus_initial_context 1] 2 0 0 = none ∧
    venus_state_cb_retire_fence [venus_initial_context 1] 2 0 0 ≠
      some ([venus_initial_context 1], []) :=
  ⟨by decide, by decide, by decide⟩

/-- C8 (amended): when no registered context carries the callback's
ctx_id, `venus_lookup_context` returns null and
`venus_state_cb_retire_fence` does not proceed to retire anything on any
context - but the failure is not logged and swallowed: the callback
asserts the context exists and dereferences the null pointer, so it has
no normal return (modelled as `none`). -/
theorem venus_retire_unknown_ctx_asserts (contexts : List venus_context)
    (ctx_id ring_idx fence_id : Nat)
    (h : ∀ c ∈ contexts, c.ctx_id ≠ ctx_id) :
    venus_lookup_context contexts ctx_id = none ∧
    venus_state_cb_retire_fence contexts ctx_id ring_idx fence_id = none := by
  have hl : venus_lookup_context contexts ctx_id = none := by
    simp only [venus_lookup_context, List.find?_eq_none, beq_iff_eq]
    exact h
  exact ⟨hl, by simp [venus_state_cb_retire_fence, hl]⟩

/-- C8 witness: the amended theorem applied to a singleton context list
and a mismatched ctx_id. -/
theorem venus_retire_unknown_ctx_asserts_witness :
    venus_lookup_context [venus_initial_context 1] 5 = none ∧
    venus_state_cb_retire_fence [venus_initial_context 1] 5 0 0 = none :=
  venus_retire_unknown_ctx_asserts [venus_initial_context 1] 5 0 0
    (by decide)

/-- C9: a zero-size `submit_cmd` is a no-op returning success: it
returns 0, does not call `vkr_renderer_submit_cmd`, and the context is
returned exactly as it was, whatever the renderer would have said. -/
theorem venus_submit_cmd_zero_size_noop (ctx : venus_context)
    (renderer_ok : Bool) :
    venus_context_submit_cmd ctx renderer_ok 0 = (0, ctx, false) :=
  rfl

/-- C10: `submit_fence` with `ring_idx >= VENUS_CONTEXT_TIMELINE_COUNT`
(64) returns `-EINVAL` (-22) with the context unchanged and the driver
submit hook not invoked: no fence is enqueued, no `next_seqno` advances
and the busy mask is untouched. -/
theorem venus_submit_fence_invalid_ring (ctx : venus_context)
    (flags ring_idx fence_id : Nat) (driver_ok : Bool)
    (h : VENUS_CONTEXT_TIMELINE_COUNT ≤ ring_idx) :
    venus_context_submit_fence ctx flags ring_idx fence_id driver_ok =
      (-22, ctx, false) := by
  simp only [venus_context_submit_fence, ge_iff_le, if_pos h]

/-- C10 witness: the invalid-ring theorem applied at the first
out-of-range index, 64. -/
theorem venus_submit_fence_invalid_ring_witness :
    venus_context_submit_fence (venus_initial_context 1) 0 64 5 true =
      (-22, venus_initial_context 1, false) :=
  venus_submit_fence_invalid_ring (venus_initial_context 1) 0 64 5 true
    (by decide)
